import Mathlib

/-!
Verification development for the knowledge-hub AI question-answering pipeline:
the generative-service client (`generateTextStream`, `generateJson`), the
context assembler, the chat-turn orchestrator of the AI query component
(`handleSendMessage`) and the attribution resolver (`fetchSourceAttribution`).

JavaScript string primitives used by the source (`trim`, `substring`,
template literals, `Array.prototype.join`, truthiness of strings) are
embedded as executable Lean functions over character lists; `JSON.parse`
is embedded as an executable recursive-descent reader of the JSON grammar
(numbers are kept as their lexemes, since no arithmetic is performed on
them anywhere in the program).  Whitespace is modelled by the ASCII
whitespace characters, which covers every string the program manipulates.
-/

namespace KnowledgeHub

/-! String helpers mirroring the JavaScript primitives used by the source. -/

/-- Whitespace test mirroring the characters relevant to JS `\s` / `trim`
on the ASCII strings the program manipulates. -/
def jsWs (c : Char) : Bool :=
  c == ' ' || c == '\t' || c == '\n' || c == '\r'

/-- Embedding of JavaScript `String.prototype.trim`. -/
def jsTrim (s : String) : String :=
  String.mk (((s.toList.dropWhile jsWs).reverse.dropWhile jsWs).reverse)

/-- Embedding of JavaScript `s.substring(0, n)`. -/
def strTake (s : String) (n : Nat) : String :=
  String.mk (s.toList.take n)

/-- Embedding of JavaScript `Array.prototype.join(sep)`. -/
def joinWith (sep : String) : List String → String
  | [] => ""
  | [x] => x
  | x :: y :: xs => x ++ sep ++ joinWith sep (y :: xs)

/-- Concatenation of a chunk sequence, `c1 + ... + cn`. -/
def concatStr : List String → String
  | [] => ""
  | c :: cs => c ++ concatStr cs

/-! Data model (shapes of `Document` and `ChatMessage` as used by the
component; the `type` enumeration is informational only to the core and is
carried as its display string, which is how the component consumes it). -/

structure Document where
  id : String
  name : String
  type : String
  tags : List String
  contentSnippet : String
  fullContent : Option String
  sourceUrl : Option String
  isFavorite : Bool
deriving DecidableEq

inductive Sender
  | user
  | ai
deriving DecidableEq

structure ChatMessage where
  id : String
  sender : Sender
  text : String
  timestamp : Nat
  isLoading : Bool
  sources : Option (List String)
deriving DecidableEq

/-! Generative service client (src/services/geminiService.ts). -/

/-- Callback events of `generateTextStream`, in invocation order. -/
inductive StreamEv
  | chunk (text : String)
  | error (message : String)
  | complete
deriving DecidableEq

def unavailableMessage : String := "AI service is unavailable (API key missing)."

/-- Embedding of `generateTextStream` (geminiService.ts, lines 64-89) as the
ordered list of callback invocations it performs.  `available` is the
`!!ai` availability flag; the underlying transport delivers `chunks` in
order and then either ends normally (`transportError = none`) or fails
(`transportError = some e`, which also covers a failure before the first
chunk when `chunks = []`).  The unavailable path invokes `onError` then
`onComplete` and returns; otherwise the `try`/`catch`/`finally` structure
delivers every chunk, reports a transport failure to `onError`, and always
ends with exactly one `onComplete`. -/
def generateTextStream (available : Bool) (chunks : List String)
    (transportError : Option String) : List StreamEv :=
  if available then
    chunks.map StreamEv.chunk ++
      (match transportError with
        | some e => [StreamEv.error e]
        | none => []) ++ [StreamEv.complete]
  else
    [StreamEv.error unavailableMessage, StreamEv.complete]

def isChunkEv : StreamEv → Bool
  | StreamEv.chunk _ => true
  | _ => false

def isErrorEv : StreamEv → Bool
  | StreamEv.error _ => true
  | _ => false

/-- Holds when some `chunk` event is delivered after an `error` event. -/
def chunkAfterError : List StreamEv → Bool
  | [] => false
  | StreamEv.error _ :: evs => evs.any isChunkEv
  | _ :: evs => chunkAfterError evs

/-! Embedding of `JSON.parse` and of the code-fence stripping performed by
`generateJson` (geminiService.ts, lines 28-62). -/

/-- JSON values; numbers are carried as their lexemes since the program
performs no arithmetic on parsed numbers. -/
inductive Json
  | null
  | bool (b : Bool)
  | num (lexeme : String)
  | str (s : String)
  | arr (elems : List Json)
  | obj (fields : List (String × Json))

/-- Word-character test mirroring the ASCII class matched by regex `\w`. -/
def isWordChar (c : Char) : Bool :=
  c.isAlpha || c.isDigit || c == '_'

/-- Embedding of the fence regex match performed by `generateJson`:
the regex anchors at both ends of the trimmed text, so it matches exactly
when the text starts and ends with a triple-backtick fence (on disjoint
characters); the greedy language-tag and whitespace groups take the word
run and the whitespace run after the opening fence, and the lazy payload
group ends before the whitespace run preceding the closing fence.  Returns
the captured payload group when the regex matches. -/
def fenceInner (s : String) : Option String :=
  let cs := s.toList
  let bt := [Char.ofNat 96, Char.ofNat 96, Char.ofNat 96]
  if bt.isPrefixOf cs && bt.isPrefixOf cs.reverse && 6 ≤ cs.length then
    let r1 := (cs.drop 3).dropWhile isWordChar
    let r2 := r1.dropWhile jsWs
    some (String.mk (((r2.reverse.drop 3).dropWhile jsWs).reverse))
  else
    none

def jsonWs (c : Char) : Bool :=
  c == ' ' || c == '\t' || c == '\n' || c == '\r'

def skipWs (cs : List Char) : List Char :=
  cs.dropWhile jsonWs

def hexVal? (c : Char) : Option Nat :=
  if c.isDigit then some (c.toNat - 48)
  else if 'a' ≤ c && c ≤ 'f' then some (c.toNat - 87)
  else if 'A' ≤ c && c ≤ 'F' then some (c.toNat - 55)
  else none

/-- Reads the body of a JSON string literal after the opening quote,
consuming the closing quote.  Fuel bounds the recursion. -/
def readStringBody : Nat → List Char → Option (List Char × List Char)
  | 0, _ => none
  | _, [] => none
  | fuel + 1, c :: cs =>
    if c == '"' then
      some ([], cs)
    else if c == '\\' then
      match cs with
      | [] => none
      | e :: cs2 =>
        let put (ch : Char) (rest : List Char) : Option (List Char × List Char) :=
          match readStringBody fuel rest with
          | some (tail, rem) => some (ch :: tail, rem)
          | none => none
        if e == '"' then put '"' cs2
        else if e == '\\' then put '\\' cs2
        else if e == '/' then put '/' cs2
        else if e == 'b' then put (Char.ofNat 8) cs2
        else if e == 'f' then put (Char.ofNat 12) cs2
        else if e == 'n' then put '\n' cs2
        else if e == 'r' then put '\r' cs2
        else if e == 't' then put '\t' cs2
        else if e == 'u' then
          match cs2 with
          | h1 :: h2 :: h3 :: h4 :: cs3 =>
            match hexVal? h1, hexVal? h2, hexVal? h3, hexVal? h4 with
            | some a, some b, some c3, some d =>
              put (Char.ofNat (((a * 16 + b) * 16 + c3) * 16 + d)) cs3
            | _, _, _, _ => none
          | _ => none
        else none
    else if c.toNat < 32 then
      none
    else
      match readStringBody fuel cs with
      | some (tail, rem) => some (c :: tail, rem)
      | none => none

/-- Reads the integer part of a JSON number: `0|[1-9][0-9]*`. -/
def readIntPart : List Char → Option (List Char × List Char)
  | [] => none
  | c :: r =>
    if c == '0' then some ([c], r)
    else if c.isDigit then
      let digs := r.takeWhile Char.isDigit
      some (c :: digs, r.drop digs.length)
    else none

/-- Reads the optional fraction part of a JSON number: `(\.[0-9]+)?`. -/
def readFracPart : List Char → Option (List Char × List Char)
  | '.' :: r =>
    let digs := r.takeWhile Char.isDigit
    if digs.isEmpty then none else some ('.' :: digs, r.drop digs.length)
  | cs => some ([], cs)

/-- Reads the optional exponent part of a JSON number: `([eE][+-]?[0-9]+)?`. -/
def readExpPart : List Char → Option (List Char × List Char)
  | [] => some ([], [])
  | c :: r =>
    if c == 'e' || c == 'E' then
      let (sgn, r2) :=
        match r with
        | s :: r3 => if s == '+' || s == '-' then ([s], r3) else (([] : List Char), s :: r3)
        | [] => (([] : List Char), ([] : List Char))
      let digs := r2.takeWhile Char.isDigit
      if digs.isEmpty then none else some (c :: (sgn ++ digs), r2.drop digs.length)
    else some ([], c :: r)

/-- Reads a JSON number lexeme: `-?(0|[1-9][0-9]*)(\.[0-9]+)?([eE][+-]?[0-9]+)?`. -/
def readNumberLex (cs0 : List Char) : Option (List Char × List Char) :=
  let (neg, cs1) :=
    match cs0 with
    | '-' :: rest => ([('-' : Char)], rest)
    | _ => (([] : List Char), cs0)
  match readIntPart cs1 with
  | none => none
  | some (ip, cs2) =>
    match readFracPart cs2 with
    | none => none
    | some (fp, cs3) =>
      match readExpPart cs3 with
      | none => none
      | some (ep, cs4) => some (neg ++ ip ++ fp ++ ep, cs4)

/-- Reads a comma-separated list of items with the supplied item reader,
returning the items and the unconsumed input (whitespace already skipped).
Fuel bounds the recursion. -/
def sepByComma {α : Type} (p : List Char → Option (α × List Char)) :
    Nat → List Char → Option (List α × List Char)
  | 0, _ => none
  | fuel + 1, cs =>
    match p cs with
    | none => none
    | some (v, rest) =>
      match skipWs rest with
      | ',' :: rest2 =>
        match sepByComma p fuel rest2 with
        | some (vs, rem) => some (v :: vs, rem)
        | none => none
      | rest' => some ([v], rest')

/-- Reads one JSON value from the input.  Fuel bounds the recursion depth;
every nested value is preceded by at least one consumed character, so fuel
equal to the input length suffices. -/
def readVal : Nat → List Char → Option (Json × List Char)
  | 0, _ => none
  | fuel + 1, cs0 =>
    match skipWs cs0 with
    | [] => none
    | 'n' :: 'u' :: 'l' :: 'l' :: rest => some (Json.null, rest)
    | 't' :: 'r' :: 'u' :: 'e' :: rest => some (Json.bool true, rest)
    | 'f' :: 'a' :: 'l' :: 's' :: 'e' :: rest => some (Json.bool false, rest)
    | '"' :: rest =>
      match readStringBody (rest.length + 1) rest with
      | some (body, rem) => some (Json.str (String.mk body), rem)
      | none => none
    | '[' :: rest =>
      (match skipWs rest with
        | ']' :: rem => some (Json.arr [], rem)
        | rest1 =>
          match sepByComma (fun cs => readVal fuel cs) fuel rest1 with
          | some (vs, rem1) =>
            (match skipWs rem1 with
              | ']' :: rem2 => some (Json.arr vs, rem2)
              | _ => none)
          | none => none)
    | '{' :: rest =>
      (match skipWs rest with
        | '}' :: rem => some (Json.obj [], rem)
        | rest1 =>
          let pField : List Char → Option ((String × Json) × List Char) := fun cs =>
            match skipWs cs with
            | '"' :: cs2 =>
              (match readStringBody (cs2.length + 1) cs2 with
                | some (key, cs3) =>
                  (match skipWs cs3 with
                    | ':' :: cs4 =>
                      (match readVal fuel cs4 with
                        | some (v, cs5) => some ((String.mk key, v), cs5)
                        | none => none)
                    | _ => none)
                | none => none)
            | _ => none
          match sepByComma pField fuel rest1 with
          | some (fs, rem1) =>
            (match skipWs rem1 with
              | '}' :: rem2 => some (Json.obj fs, rem2)
              | _ => none)
          | none => none)
    | cs =>
      match readNumberLex cs with
      | some (lex, rem) => some (Json.num (String.mk lex), rem)
      | none => none

/-- Embedding of `JSON.parse`: reads exactly one JSON value surrounded by
optional whitespace, failing on trailing content. -/
def parseJson (s : String) : Option Json :=
  match readVal (s.length + 1) s.toList with
  | some (v, rest) => if (skipWs rest).isEmpty then some v else none
  | none => none

/-! Embedding of `generateJson` (geminiService.ts, lines 28-62). -/

/-- Failure classification recorded in the error thrown by `generateJson`
(its message embeds the best-effort raw text and the original cause). -/
inductive JsonFailCause
  | emptyPayload
  | parseFailure
  | transport (message : String)
deriving DecidableEq

/-- Transport-level failure of a structured-completion request; the thrown
error may expose the response text (`(error as any)?.response?.text`). -/
structure TransportErr where
  responseText : Option String
  message : String

/-- Outcome of `generateJson`: `nullResult` models the `null` return on the
unavailable path, `ok` a parsed value, `err` the thrown structured error. -/
inductive JsonOutcome
  | nullResult
  | ok (value : Json)
  | err (rawText : Option String) (cause : JsonFailCause)

/-- Embedding of `generateJson`.  `available` is the `!!ai` flag and
`transport` the result of the underlying `generateContent` call.  On the
available path the response text is trimmed, a matched code fence with a
non-empty payload group is stripped (keeping the trimmed payload), an empty
remainder is treated as failure, and the remainder is parsed as JSON;
transport or parse failures are rethrown as a structured error carrying the
best-effort raw text and the cause. -/
def generateJson (available : Bool) (transport : Except TransportErr String) :
    JsonOutcome :=
  if available then
    match transport with
    | Except.error e => JsonOutcome.err e.responseText (JsonFailCause.transport e.message)
    | Except.ok raw =>
      let j0 := jsTrim raw
      let j1 :=
        match fenceInner j0 with
        | some p => if p == "" then j0 else jsTrim p
        | none => j0
      if j1 == "" then JsonOutcome.err none JsonFailCause.emptyPayload
      else
        match parseJson j1 with
        | some v => JsonOutcome.ok v
        | none => JsonOutcome.err none JsonFailCause.parseFailure
  else
    JsonOutcome.nullResult

/-! Context assembly (AIQueryAgent, `handleSendMessage`, lines 477-490). -/

def contextDelimiter : String := "\n\n---\n\n"

def noDocsMarker : String := "No documents available in the knowledge base."

def streamErrorText : String := "Sorry, an error occurred while generating the answer."

def noResponseText : String := "No further response."

def unavailableAlertText : String :=
  "AI Service is not available. Please check API key configuration."

/-- Embedding of the filter predicate `doc.contentSnippet || doc.fullContent`:
a document qualifies when its snippet is non-empty or its full content is
present and non-empty (JS string truthiness). -/
def qualifies (d : Document) : Bool :=
  d.contentSnippet != "" ||
    (match d.fullContent with
      | some s => s != ""
      | none => false)

/-- Embedding of the per-document template literal: name, type, an optional
source-URL line, the snippet, and a 100-character full-content preview
suffixed with `...` when full content is present and non-empty. -/
def renderBlock (d : Document) : String :=
  "Document Name: " ++ d.name ++ "\nType: " ++ d.type ++
    (match d.sourceUrl with
      | some u => if u != "" then "\nSource URL: " ++ u else ""
      | none => "") ++
    "\nContent Snippet: " ++ d.contentSnippet ++
    (match d.fullContent with
      | some f => if f != "" then "\nFull Content Hint: " ++ strTake f 100 ++ "..." else ""
      | none => "")

/-- Embedding of the `contextSnippets` computation: filter, take the first
five, render each block, join with the fixed delimiter. -/
def contextSnippets (docs : List Document) : String :=
  joinWith contextDelimiter (((docs.filter qualifies).take 5).map renderBlock)

/-- Context string as substituted into the prompt template: the joined
blocks when non-empty, otherwise the fixed no-documents marker
(`contextSnippets.length > 0 ? contextSnippets : "No documents available..."`). -/
def assembleContext (docs : List Document) : String :=
  let cs := contextSnippets docs
  if cs.length > 0 then cs else noDocsMarker

/-! Attribution resolver (AIQueryAgent, `fetchSourceAttribution`,
lines 412-438). -/

/-- Guard of `fetchSourceAttribution`: the resolver returns `undefined`
without calling the service when the answer trims to empty or the service
is unavailable. -/
def attributionSkipped (available : Bool) (aiAnswer : String) : Bool :=
  jsTrim aiAnswer == "" || !available

/-- Embedding of `fetchSourceAttribution`.  Returns the resolved sources
(`none` models `undefined`) paired with whether a structured-completion
request was issued.  On a issued call, a thrown `generateJson` error is
caught and degrades to `undefined`; a non-array result degrades to
`undefined`; an array result is filtered to its string elements. -/
def fetchSourceAttribution (available : Bool) (aiAnswer : String)
    (transport : Except TransportErr String) : Option (List String) × Bool :=
  if attributionSkipped available aiAnswer then
    (none, false)
  else
    ((match generateJson available transport with
      | JsonOutcome.ok (Json.arr elems) =>
        some (elems.filterMap (fun j =>
          match j with
          | Json.str s => some s
          | _ => none))
      | _ => none), true)

/-! Chat-turn orchestration (AIQueryAgent, `handleSendMessage`,
lines 441-519).  The three `setChatHistory` functional updates are embedded
as transcript transformers; the stream callbacks are folded over the
callback-event list produced by `generateTextStream`. -/

/-- Embedding of the `onChunk` transcript update: replace the text of the
still-loading entry with the whole accumulator. -/
def chunkUpdate (loadingId : String) (acc : String)
    (hist : List ChatMessage) : List ChatMessage :=
  hist.map (fun m =>
    if m.id == loadingId && m.isLoading then { m with text := acc } else m)

/-- Embedding of the `onError` transcript update: replace the loading
entry's text with the fixed error string, clear `isLoading`, and move the
entry to the final id. -/
def errorUpdate (loadingId finalId : String)
    (hist : List ChatMessage) : List ChatMessage :=
  hist.map (fun m =>
    if m.id == loadingId && m.isLoading then
      { m with text := streamErrorText, isLoading := false, id := finalId }
    else m)

/-- Embedding of the `onComplete` transcript update: set the final text
(`accumulatedAnswer || "No further response."`), clear `isLoading`, move to
the final id and attach the attribution result. -/
def completeUpdate (loadingId finalId : String) (acc : String)
    (sources : Option (List String)) (hist : List ChatMessage) : List ChatMessage :=
  hist.map (fun m =>
    if m.id == loadingId && m.isLoading then
      { m with text := if acc == "" then noResponseText else acc,
               isLoading := false, id := finalId, sources := sources }
    else m)

/-- Folds the stream callback events over the transcript, threading the
`accumulatedAnswer` accumulator exactly as the callbacks do.  Returns the
final transcript, the final accumulator, and whether the attribution pass
issued a structured-completion request.  `attribution` is the transport
outcome the attribution request would observe. -/
def applyStreamEvents (loadingId finalId : String) (available : Bool)
    (attribution : Except TransportErr String) :
    List StreamEv → String → List ChatMessage → List ChatMessage × String × Bool
  | [], acc, hist => (hist, acc, false)
  | StreamEv.chunk c :: evs, acc, hist =>
    applyStreamEvents loadingId finalId available attribution evs (acc ++ c)
      (chunkUpdate loadingId (acc ++ c) hist)
  | StreamEv.error _ :: evs, acc, hist =>
    applyStreamEvents loadingId finalId available attribution evs acc
      (errorUpdate loadingId finalId hist)
  | StreamEv.complete :: evs, acc, hist =>
    let res := fetchSourceAttribution available acc attribution
    let hist2 := completeUpdate loadingId finalId acc res.1 hist
    let rest := applyStreamEvents loadingId finalId available attribution evs acc hist2
    (rest.1, rest.2.1, res.2 || rest.2.2)

/-- Result classification of a `handleSendMessage` invocation. -/
inductive TurnOutcome
  | emptyQuery
  | unavailableAlert (message : String)
  | ran
deriving DecidableEq

/-- Embedding of `handleSendMessage` for one chat turn.  `now1`, `now2`,
`now3` are the three `Date.now()` reads used to mint the user, loading and
final entry ids; `chunks`/`streamError` describe the transport stream and
`attribution` the transport outcome of the attribution request.  Returns
the final transcript, whether an attribution request was issued, and the
turn outcome.  The empty-query and availability guards run before any
transcript entry is appended. -/
def handleSendMessage (query : String) (available : Bool)
    (now1 now2 now3 : Nat) (chunks : List String) (streamError : Option String)
    (attribution : Except TransportErr String)
    (hist0 : List ChatMessage) : List ChatMessage × Bool × TurnOutcome :=
  if jsTrim query == "" then
    (hist0, false, TurnOutcome.emptyQuery)
  else if !available then
    (hist0, false, TurnOutcome.unavailableAlert unavailableAlertText)
  else
    let userMsg : ChatMessage :=
      { id := toString now1 ++ "_user", sender := Sender.user, text := query,
        timestamp := now1, isLoading := false, sources := none }
    let loadingId := toString now2 ++ "_ai_loading"
    let loadingMsg : ChatMessage :=
      { id := loadingId, sender := Sender.ai, text := "",
        timestamp := now2, isLoading := true, sources := none }
    let finalId := toString now3 ++ "_ai_final"
    let evs := generateTextStream available chunks streamError
    let res := applyStreamEvents loadingId finalId available attribution evs ""
      (hist0 ++ [userMsg, loadingMsg])
    (res.1, res.2.2, TurnOutcome.ran)

/-! Sequencing inside the `onComplete` callback (lines 510-516): the
callback first evaluates `await fetchSourceAttribution(...)` — issuing the
structured-completion request unless the resolver's guard skips it — and
only afterwards applies the finalizing transcript update. -/

inductive TurnEv
  | attributionRequest
  | finalizeEntry
deriving DecidableEq

/-- Ordered effects of the `onComplete` callback body. -/
def onCompleteEvents (available : Bool) (acc : String) : List TurnEv :=
  (if attributionSkipped available acc then [] else [TurnEv.attributionRequest]) ++
    [TurnEv.finalizeEntry]

/-- The property asserted by the specification: finalization strictly
precedes every attribution request in the callback's effect order. -/
def finalizeBeforeAttribution (evs : List TurnEv) : Prop :=
  ∀ i j : Fin evs.length, evs.get i = TurnEv.finalizeEntry →
    evs.get j = TurnEv.attributionRequest → (i : Nat) < (j : Nat)

/-- The order the code actually implements: every attribution request
strictly precedes finalization. -/
def attributionBeforeFinalize (evs : List TurnEv) : Prop :=
  ∀ i j : Fin evs.length, evs.get i = TurnEv.attributionRequest →
    evs.get j = TurnEv.finalizeEntry → (i : Nat) < (j : Nat)

/-! Reachable transcript states: every transcript mutation performed by the
component is one of the four updates below, so the reachable states are the
fold of any event sequence over the empty transcript. -/

inductive OrchEv
  | submit (query : String) (now1 now2 : Nat)
  | chunk (loadingId acc : String)
  | errorFin (loadingId finalId : String)
  | completeFin (loadingId finalId acc : String) (sources : Option (List String))

/-- Applies one transcript mutation. -/
def applyOrchEv (hist : List ChatMessage) : OrchEv → List ChatMessage
  | OrchEv.submit q now1 now2 =>
    hist ++
      [{ id := toString now1 ++ "_user", sender := Sender.user, text := q,
         timestamp := now1, isLoading := false, sources := none },
       { id := toString now2 ++ "_ai_loading", sender := Sender.ai, text := "",
         timestamp := now2, isLoading := true, sources := none }]
  | OrchEv.chunk lid acc => chunkUpdate lid acc hist
  | OrchEv.errorFin lid fid => errorUpdate lid fid hist
  | OrchEv.completeFin lid fid acc src => completeUpdate lid fid acc src hist

/-- Invariant: a message carrying a sources list is never loading. -/
def sourcesOnlyWhenFinal (hist : List ChatMessage) : Prop :=
  ∀ m ∈ hist, m.sources ≠ none → m.isLoading = false

/-! Decidability of the callback-ordering predicates. -/

instance (evs : List TurnEv) : Decidable (finalizeBeforeAttribution evs) := by
  unfold finalizeBeforeAttribution
  infer_instance

instance (evs : List TurnEv) : Decidable (attributionBeforeFinalize evs) := by
  unfold attributionBeforeFinalize
  infer_instance

/-! Helper lemmas. -/

lemma count_complete_map_chunk (cs : List String) :
    (cs.map StreamEv.chunk).count StreamEv.complete = 0 := by
  induction cs with
  | nil => rfl
  | cons c cs ih => simp [List.count_cons, ih]

lemma filter_isErrorEv_map_chunk (cs : List String) :
    (cs.map StreamEv.chunk).filter isErrorEv = [] := by
  induction cs with
  | nil => rfl
  | cons c cs ih => simp [List.filter_cons, isErrorEv, ih]

lemma chunkAfterError_map_chunk_append (cs : List String) (rest : List StreamEv) :
    chunkAfterError (cs.map StreamEv.chunk ++ rest) = chunkAfterError rest := by
  induction cs with
  | nil => rfl
  | cons c cs ih => simpa [chunkAfterError] using ih

/-- C3: for every invocation of `generateTextStream`, `onComplete` fires
exactly once and last; on a transport failure `onError` fires exactly once
and on success not at all; no chunk is delivered after an error; and the
unavailable path is exactly `onError` (with the fixed message) followed by
`onComplete`. -/
theorem generateTextStream_callback_protocol (avail : Bool) (chunks : List String)
    (err : Option String) (e : String) :
    (generateTextStream avail chunks err).count StreamEv.complete = 1 ∧
    (generateTextStream avail chunks err).getLast? = some StreamEv.complete ∧
    ((generateTextStream true chunks (some e)).filter isErrorEv).length = 1 ∧
    ((generateTextStream true chunks none).filter isErrorEv).length = 0 ∧
    chunkAfterError (generateTextStream avail chunks err) = false ∧
    generateTextStream false chunks err =
      [StreamEv.error unavailableMessage, StreamEv.complete] := by
  refine ⟨?_, ?_, ?_, ?_, ?_, rfl⟩
  · cases avail with
    | false => rfl
    | true =>
      cases err with
      | none =>
        simp [generateTextStream, List.count_append, count_complete_map_chunk,
          List.count_cons]
      | some msg =>
        simp [generateTextStream, List.count_append, count_complete_map_chunk,
          List.count_cons]
  · cases avail with
    | false => rfl
    | true =>
      cases err with
      | none => simp [generateTextStream, List.getLast?_concat]
      | some msg => simp [generateTextStream, List.getLast?_concat]
  · simp [generateTextStream, List.filter_append, filter_isErrorEv_map_chunk,
      List.filter_cons, isErrorEv]
  · simp [generateTextStream, List.filter_append, filter_isErrorEv_map_chunk,
      List.filter_cons, isErrorEv]
  · cases avail with
    | false => rfl
    | true =>
      cases err with
      | none =>
        rw [generateTextStream, if_pos rfl, List.append_assoc,
          chunkAfterError_map_chunk_append]
        rfl
      | some msg =>
        rw [generateTextStream, if_pos rfl, List.append_assoc,
          chunkAfterError_map_chunk_append]
        rfl

/-- C1 counterexample: on a successful stream with a non-empty accumulated
answer and an available service, the `onComplete` callback issues the
attribution request before applying the finalizing transcript update, so
finalization does not precede attribution. -/
theorem onComplete_finalize_not_first :
    onCompleteEvents true "answer" =
      [TurnEv.attributionRequest, TurnEv.finalizeEntry] ∧
    ¬ finalizeBeforeAttribution (onCompleteEvents true "answer") := by
  constructor
  · rfl
  · decide

/-- C1 (amended): the `onComplete` callback finalizes the entry exactly
once, as its last effect; it issues the attribution request exactly when
the answer is non-blank and the service is available, and that request is
issued (and awaited) before finalization, not after. -/
theorem onComplete_sequencing (avail : Bool) (acc : String) :
    (onCompleteEvents avail acc).getLast? = some TurnEv.finalizeEntry ∧
    (onCompleteEvents avail acc).count TurnEv.finalizeEntry = 1 ∧
    (TurnEv.attributionRequest ∈ onCompleteEvents avail acc ↔
      attributionSkipped avail acc = false) ∧
    attributionBeforeFinalize (onCompleteEvents avail acc) := by
  unfold onCompleteEvents
  cases h : attributionSkipped avail acc with
  | false => simp only [h]; refine ⟨rfl, rfl, by decide, by decide⟩
  | true => simp only [h]; refine ⟨rfl, rfl, by decide, by decide⟩

lemma map_guard_quiet (g : ChatMessage → ChatMessage) (lid : String)
    (hist : List ChatMessage) (hq : ∀ m ∈ hist, m.isLoading = false) :
    hist.map (fun m => if m.id == lid && m.isLoading then g m else m) = hist := by
  induction hist with
  | nil => rfl
  | cons m hist ih =>
    have hm := hq m (by simp)
    simp only [List.map_cons, hm, Bool.and_false, if_neg Bool.false_ne_true]
    rw [ih (fun x hx => hq x (List.mem_cons_of_mem m hx))]

lemma chunkUpdate_quiet (lid acc : String) (hist : List ChatMessage)
    (hq : ∀ m ∈ hist, m.isLoading = false) :
    chunkUpdate lid acc hist = hist :=
  map_guard_quiet _ lid hist hq

lemma errorUpdate_quiet (lid fid : String) (hist : List ChatMessage)
    (hq : ∀ m ∈ hist, m.isLoading = false) :
    errorUpdate lid fid hist = hist :=
  map_guard_quiet _ lid hist hq

lemma completeUpdate_quiet (lid fid acc : String) (src : Option (List String))
    (hist : List ChatMessage) (hq : ∀ m ∈ hist, m.isLoading = false) :
    completeUpdate lid fid acc src hist = hist :=
  map_guard_quiet _ lid hist hq

lemma chunkUpdate_append_loading (lid acc : String) (hist0 : List ChatMessage)
    (entry : ChatMessage) (hq : ∀ m ∈ hist0, m.isLoading = false)
    (hload : entry.isLoading = true) (hid : entry.id = lid) :
    chunkUpdate lid acc (hist0 ++ [entry]) = hist0 ++ [{ entry with text := acc }] := by
  unfold chunkUpdate
  rw [List.map_append]
  rw [show hist0.map _ = hist0 from map_guard_quiet _ lid hist0 hq]
  simp [hid, hload]

lemma errorUpdate_append_loading (lid fid : String) (hist0 : List ChatMessage)
    (entry : ChatMessage) (hq : ∀ m ∈ hist0, m.isLoading = false)
    (hload : entry.isLoading = true) (hid : entry.id = lid) :
    errorUpdate lid fid (hist0 ++ [entry]) =
      hist0 ++ [{ entry with text := streamErrorText, isLoading := false, id := fid }] := by
  unfold errorUpdate
  rw [List.map_append]
  rw [show hist0.map _ = hist0 from map_guard_quiet _ lid hist0 hq]
  simp [hid, hload]

lemma completeUpdate_append_loading (lid fid acc : String)
    (src : Option (List String)) (hist0 : List ChatMessage)
    (entry : ChatMessage) (hq : ∀ m ∈ hist0, m.isLoading = false)
    (hload : entry.isLoading = true) (hid : entry.id = lid) :
    completeUpdate lid fid acc src (hist0 ++ [entry]) =
      hist0 ++
        [{ entry with
            text := (if acc == "" then noResponseText else acc),
            isLoading := false, id := fid, sources := src }] := by
  unfold completeUpdate
  rw [List.map_append]
  rw [show hist0.map _ = hist0 from map_guard_quiet _ lid hist0 hq]
  simp [hid, hload]

/-- Once the error callback has finalized the loading entry, the later
completion callback's transcript update matches nothing and is a no-op. -/
lemma completeUpdate_after_errorUpdate (lid fid fid2 acc : String)
    (src : Option (List String)) (hist : List ChatMessage) :
    completeUpdate lid fid2 acc src (errorUpdate lid fid hist) =
      errorUpdate lid fid hist := by
  unfold completeUpdate errorUpdate
  rw [List.map_map]
  apply List.map_congr_left
  intro m _
  by_cases hg : (m.id == lid && m.isLoading) = true
  · simp [Function.comp, hg]
  · simp [Function.comp, hg]

/-- Folding a prefix of chunk events accumulates their concatenation into
both the accumulator and the loading entry's text. -/
lemma applyStreamEvents_chunkRun (lid fid : String) (avail : Bool)
    (attr : Except TransportErr String) (cs : List String) (evs : List StreamEv)
    (acc : String) (hist0 : List ChatMessage) (entry : ChatMessage)
    (hq : ∀ m ∈ hist0, m.isLoading = false)
    (hload : entry.isLoading = true) (hid : entry.id = lid) :
    applyStreamEvents lid fid avail attr (cs.map StreamEv.chunk ++ evs) acc
      (hist0 ++ [{ entry with text := acc }]) =
    applyStreamEvents lid fid avail attr evs (acc ++ concatStr cs)
      (hist0 ++ [{ entry with text := acc ++ concatStr cs }]) := by
  induction cs generalizing acc with
  | nil =>
    simp [concatStr]
  | cons c cs ih =>
    have hstep : chunkUpdate lid (acc ++ c) (hist0 ++ [{ entry with text := acc }]) =
        hist0 ++ [{ entry with text := acc ++ c }] := by
      have := chunkUpdate_append_loading lid (acc ++ c) hist0
        { entry with text := acc } hq hload hid
      simpa using this
    simp only [List.map_cons, List.cons_append, applyStreamEvents, hstep,
      List.append_eq]
    rw [ih (acc ++ c)]
    simp [concatStr, String.append_assoc]

lemma empty_append_str (s : String) : "" ++ s = s := rfl

lemma fetchSourceAttribution_issued (avail : Bool) (a : String)
    (t : Except TransportErr String) :
    (fetchSourceAttribution avail a t).2 = !attributionSkipped avail a := by
  unfold fetchSourceAttribution
  cases h : attributionSkipped avail a <;> simp [h]

/-- Full fold of an errored stream: the chunks accumulate, the error
callback finalizes the entry with the fixed error text, and the completion
callback's update is a no-op while its attribution pass still runs. -/
lemma applyStreamEvents_error_turn (lid fid : String)
    (attr : Except TransportErr String) (chunks : List String) (e : String)
    (hist0 : List ChatMessage) (entry : ChatMessage)
    (hq : ∀ m ∈ hist0, m.isLoading = false)
    (hload : entry.isLoading = true) (hid : entry.id = lid) :
    applyStreamEvents lid fid true attr
      (chunks.map StreamEv.chunk ++ [StreamEv.error e, StreamEv.complete]) ""
      (hist0 ++ [{ entry with text := "" }]) =
      (hist0 ++
        [{ entry with
            text := streamErrorText, isLoading := false, id := fid }],
       concatStr chunks, !attributionSkipped true (concatStr chunks)) := by
  rw [applyStreamEvents_chunkRun lid fid true attr chunks _ "" hist0 entry hq hload hid]
  rw [empty_append_str]
  have herr : errorUpdate lid fid (hist0 ++ [{ entry with text := concatStr chunks }]) =
      hist0 ++ [{ entry with text := streamErrorText, isLoading := false, id := fid }] := by
    have := errorUpdate_append_loading lid fid hist0
      { entry with text := concatStr chunks } hq hload hid
    simpa using this
  have hq2 : ∀ m ∈ hist0 ++
      [{ entry with text := streamErrorText, isLoading := false, id := fid }],
      m.isLoading = false := by
    intro m hm
    rcases List.mem_append.mp hm with h | h
    · exact hq m h
    · rw [List.mem_singleton.mp h]
  simp only [applyStreamEvents, herr,
    completeUpdate_quiet lid fid (concatStr chunks) _ _ hq2,
    fetchSourceAttribution_issued, Bool.or_false]

/-- Full fold of a successful stream: the chunks accumulate and the
completion callback finalizes the entry with the accumulated answer (or
the fixed fallback when it is empty) and the attribution result. -/
lemma applyStreamEvents_success_turn (lid fid : String)
    (attr : Except TransportErr String) (chunks : List String)
    (hist0 : List ChatMessage) (entry : ChatMessage)
    (hq : ∀ m ∈ hist0, m.isLoading = false)
    (hload : entry.isLoading = true) (hid : entry.id = lid) :
    applyStreamEvents lid fid true attr
      (chunks.map StreamEv.chunk ++ [StreamEv.complete]) ""
      (hist0 ++ [{ entry with text := "" }]) =
      (hist0 ++
        [{ entry with
            text := (if concatStr chunks == "" then noResponseText else concatStr chunks),
            isLoading := false, id := fid,
            sources := (fetchSourceAttribution true (concatStr chunks) attr).1 }],
       concatStr chunks, !attributionSkipped true (concatStr chunks)) := by
  rw [applyStreamEvents_chunkRun lid fid true attr chunks _ "" hist0 entry hq hload hid]
  rw [empty_append_str]
  have hcomp : completeUpdate lid fid (concatStr chunks)
      (fetchSourceAttribution true (concatStr chunks) attr).1
      (hist0 ++ [{ entry with text := concatStr chunks }]) =
      hist0 ++
        [{ entry with
            text := (if concatStr chunks == "" then noResponseText else concatStr chunks),
            isLoading := false, id := fid,
            sources := (fetchSourceAttribution true (concatStr chunks) attr).1 }] := by
    have := completeUpdate_append_loading lid fid (concatStr chunks)
      (fetchSourceAttribution true (concatStr chunks) attr).1 hist0
      { entry with text := concatStr chunks } hq hload hid
    simpa using this
  simp only [applyStreamEvents, hcomp, fetchSourceAttribution_issued, Bool.or_false]

lemma handleSendMessage_proceeds (query : String) (now1 now2 now3 : Nat)
    (chunks : List String) (serr : Option String)
    (attr : Except TransportErr String) (hist0 : List ChatMessage)
    (hq2 : (jsTrim query == "") = false) :
    handleSendMessage query true now1 now2 now3 chunks serr attr hist0 =
      ((applyStreamEvents (toString now2 ++ "_ai_loading")
          (toString now3 ++ "_ai_final") true attr
          (generateTextStream true chunks serr) ""
          (hist0 ++
            [{ id := toString now1 ++ "_user", sender := Sender.user,
                text := query, timestamp := now1, isLoading := false,
                sources := none },
             { id := toString now2 ++ "_ai_loading", sender := Sender.ai,
                text := "", timestamp := now2, isLoading := true,
                sources := none }])).1,
       (applyStreamEvents (toString now2 ++ "_ai_loading")
          (toString now3 ++ "_ai_final") true attr
          (generateTextStream true chunks serr) ""
          (hist0 ++
            [{ id := toString now1 ++ "_user", sender := Sender.user,
                text := query, timestamp := now1, isLoading := false,
                sources := none },
             { id := toString now2 ++ "_ai_loading", sender := Sender.ai,
                text := "", timestamp := now2, isLoading := true,
                sources := none }])).2.2,
       TurnOutcome.ran) := by
  unfold handleSendMessage
  simp [hq2]

/-- C2 counterexample: on a turn whose stream errors after delivering a
chunk, the completion callback still runs the attribution pass, so an
attribution request is issued even though the turn failed. -/
theorem errorTurn_attribution_attempted_cex :
    (handleSendMessage "q" true 0 1 2 ["Hello"] (some "boom")
        (Except.ok "[]") []).2.1 = true ∧
    (handleSendMessage "q" true 0 1 2 ["Hello"] (some "boom")
        (Except.ok "[]") []).1 =
      [{ id := "0_user", sender := Sender.user, text := "q", timestamp := 0,
          isLoading := false, sources := none },
       { id := "2_ai_final", sender := Sender.ai, text := streamErrorText,
          timestamp := 1, isLoading := false, sources := none }] := by
  exact ⟨by decide, by decide⟩

/-- C2 (amended): when the stream signals an error, the loading entry's
text is replaced with the fixed user-facing error string, its `isLoading`
is cleared, and no attribution result is ever attached to it (the later
completion update is a no-op on the finalized entry); however the
completion callback still issues an attribution request whenever the
chunks accumulated before the error are non-blank. -/
theorem handleSendMessage_stream_error (query : String) (now1 now2 now3 : Nat)
    (chunks : List String) (e : String) (attr : Except TransportErr String)
    (hist0 : List ChatMessage)
    (hq : ¬ jsTrim query = "") (hquiet : ∀ m ∈ hist0, m.isLoading = false) :
    handleSendMessage query true now1 now2 now3 chunks (some e) attr hist0 =
      (hist0 ++
        [{ id := toString now1 ++ "_user", sender := Sender.user, text := query,
            timestamp := now1, isLoading := false, sources := none },
         { id := toString now3 ++ "_ai_final", sender := Sender.ai,
            text := streamErrorText, timestamp := now2, isLoading := false,
            sources := none }],
       !attributionSkipped true (concatStr chunks), TurnOutcome.ran) := by
  have hq2 : (jsTrim query == "") = false := by simpa using hq
  rw [handleSendMessage_proceeds query now1 now2 now3 chunks (some e) attr hist0 hq2]
  have hevs : generateTextStream true chunks (some e) =
      chunks.map StreamEv.chunk ++ [StreamEv.error e, StreamEv.complete] := by
    simp [generateTextStream]
  have hq' : ∀ m ∈ hist0 ++
      [{ id := toString now1 ++ "_user", sender := Sender.user,
          text := query, timestamp := now1, isLoading := false,
          sources := none }], m.isLoading = false := by
    intro m hm
    rcases List.mem_append.mp hm with h | h
    · exact hquiet m h
    · rw [List.mem_singleton.mp h]
  have hmain := applyStreamEvents_error_turn (toString now2 ++ "_ai_loading")
      (toString now3 ++ "_ai_final") attr chunks e
      (hist0 ++
        [{ id := toString now1 ++ "_user", sender := Sender.user,
            text := query, timestamp := now1, isLoading := false,
            sources := none }])
      { id := toString now2 ++ "_ai_loading", sender := Sender.ai,
        text := "", timestamp := now2, isLoading := true, sources := none }
      hq' rfl rfl
  dsimp only at hmain
  simp only [List.append_assoc, List.singleton_append] at hmain
  rw [hevs, hmain]

/-- C10: when the stream completes without error and the concatenation of
the delivered chunks is empty, the finalized AI entry's text is the fixed
fallback string rather than the empty concatenation, and attribution is
skipped (no sources attached). -/
theorem emptyAnswer_fallback_text (query : String) (now1 now2 now3 : Nat)
    (chunks : List String) (attr : Except TransportErr String)
    (hist0 : List ChatMessage)
    (hq : ¬ jsTrim query = "") (hquiet : ∀ m ∈ hist0, m.isLoading = false)
    (hc : concatStr chunks = "") :
    handleSendMessage query true now1 now2 now3 chunks none attr hist0 =
      (hist0 ++
        [{ id := toString now1 ++ "_user", sender := Sender.user, text := query,
            timestamp := now1, isLoading := false, sources := none },
         { id := toString now3 ++ "_ai_final", sender := Sender.ai,
            text := noResponseText, timestamp := now2, isLoading := false,
            sources := none }],
       false, TurnOutcome.ran) := by
  have hq2 : (jsTrim query == "") = false := by simpa using hq
  rw [handleSendMessage_proceeds query now1 now2 now3 chunks none attr hist0 hq2]
  have hevs : generateTextStream true chunks none =
      chunks.map StreamEv.chunk ++ [StreamEv.complete] := by
    simp [generateTextStream]
  have hq' : ∀ m ∈ hist0 ++
      [{ id := toString now1 ++ "_user", sender := Sender.user,
          text := query, timestamp := now1, isLoading := false,
          sources := none }], m.isLoading = false := by
    intro m hm
    rcases List.mem_append.mp hm with h | h
    · exact hquiet m h
    · rw [List.mem_singleton.mp h]
  have hmain := applyStreamEvents_success_turn (toString now2 ++ "_ai_loading")
      (toString now3 ++ "_ai_final") attr chunks
      (hist0 ++
        [{ id := toString now1 ++ "_user", sender := Sender.user,
            text := query, timestamp := now1, isLoading := false,
            sources := none }])
      { id := toString now2 ++ "_ai_loading", sender := Sender.ai,
        text := "", timestamp := now2, isLoading := true, sources := none }
      hq' rfl rfl
  dsimp only at hmain
  simp only [List.append_assoc, List.singleton_append] at hmain
  rw [hevs, hmain]
  simp [hc, attributionSkipped, jsTrim, fetchSourceAttribution]

/-- C2 witness: the amended error-path theorem at a concrete turn. -/
theorem handleSendMessage_stream_error_witness :
    handleSendMessage "q" true 0 1 2 ["Hi"] (some "boom") (Except.ok "[]") [] =
      ([{ id := toString 0 ++ "_user", sender := Sender.user, text := "q",
          timestamp := 0, isLoading := false, sources := none },
        { id := toString 2 ++ "_ai_final", sender := Sender.ai,
          text := streamErrorText, timestamp := 1, isLoading := false,
          sources := none }],
       !attributionSkipped true (concatStr ["Hi"]), TurnOutcome.ran) := by
  have h := handleSendMessage_stream_error "q" 0 1 2 ["Hi"] "boom"
    (Except.ok "[]") [] (by decide) (by simp)
  simpa using h

/-- C10 witness: the fallback-text theorem at a concrete turn with no
chunks. -/
theorem emptyAnswer_fallback_text_witness :
    handleSendMessage "q" true 0 1 2 [] none (Except.ok "[]") [] =
      ([{ id := toString 0 ++ "_user", sender := Sender.user, text := "q",
          timestamp := 0, isLoading := false, sources := none },
        { id := toString 2 ++ "_ai_final", sender := Sender.ai,
          text := noResponseText, timestamp := 1, isLoading := false,
          sources := none }],
       false, TurnOutcome.ran) := by
  have h := emptyAnswer_fallback_text "q" 0 1 2 [] (Except.ok "[]") []
    (by decide) (by simp) rfl
  simpa using h

/-- C5: after all chunks of a stream are delivered, the loading entry's
text is exactly the concatenation of the chunks in delivery order, and any
re-chunking with the same concatenation yields the same transcript. -/
theorem streamed_text_is_concatenation (lid fid : String) (avail : Bool)
    (attr : Except TransportErr String) (cs cs2 : List String)
    (hist0 : List ChatMessage) (entry : ChatMessage)
    (hquiet : ∀ m ∈ hist0, m.isLoading = false)
    (hload : entry.isLoading = true) (hid : entry.id = lid)
    (hre : concatStr cs2 = concatStr cs) :
    (applyStreamEvents lid fid avail attr (cs.map StreamEv.chunk) ""
        (hist0 ++ [{ entry with text := "" }])).1 =
      hist0 ++ [{ entry with text := concatStr cs }] ∧
    (applyStreamEvents lid fid avail attr (cs2.map StreamEv.chunk) ""
        (hist0 ++ [{ entry with text := "" }])).1 =
      (applyStreamEvents lid fid avail attr (cs.map StreamEv.chunk) ""
        (hist0 ++ [{ entry with text := "" }])).1 := by
  have h1 := applyStreamEvents_chunkRun lid fid avail attr cs [] ""
    hist0 entry hquiet hload hid
  have h2 := applyStreamEvents_chunkRun lid fid avail attr cs2 [] ""
    hist0 entry hquiet hload hid
  simp only [List.append_nil, empty_append_str, applyStreamEvents] at h1 h2
  refine ⟨?_, ?_⟩
  · rw [h1]
  · rw [h1, h2, hre]

/-- C5 witness: two re-chunkings of the text "ab" at a concrete transcript. -/
theorem streamed_text_is_concatenation_witness :
    (applyStreamEvents "L" "F" true (Except.ok "[]")
        (["a", "b"].map StreamEv.chunk) ""
        [{ id := "L", sender := Sender.ai, text := "", timestamp := 0,
            isLoading := true, sources := none }]).1 =
      [{ id := "L", sender := Sender.ai, text := concatStr ["a", "b"],
          timestamp := 0, isLoading := true, sources := none }] ∧
    (applyStreamEvents "L" "F" true (Except.ok "[]")
        (["ab"].map StreamEv.chunk) ""
        [{ id := "L", sender := Sender.ai, text := "", timestamp := 0,
            isLoading := true, sources := none }]).1 =
      (applyStreamEvents "L" "F" true (Except.ok "[]")
        (["a", "b"].map StreamEv.chunk) ""
        [{ id := "L", sender := Sender.ai, text := "", timestamp := 0,
            isLoading := true, sources := none }]).1 := by
  have h := streamed_text_is_concatenation "L" "F" true (Except.ok "[]")
    ["a", "b"] ["ab"] []
    { id := "L", sender := Sender.ai, text := "", timestamp := 0,
      isLoading := true, sources := none }
    (by simp) rfl rfl (by decide)
  simpa using h

/-- C8: when the service is unavailable, submitting a query leaves the
transcript untouched (no entry is appended, so none is ever loading), and a
non-blank query resolves synchronously to the fixed unavailable alert. -/
theorem unavailable_submission_never_loads (query : String)
    (now1 now2 now3 : Nat) (chunks : List String) (serr : Option String)
    (attr : Except TransportErr String) (hist0 : List ChatMessage) :
    (handleSendMessage query false now1 now2 now3 chunks serr attr hist0).1 =
      hist0 ∧
    (¬ jsTrim query = "" →
      handleSendMessage query false now1 now2 now3 chunks serr attr hist0 =
        (hist0, false, TurnOutcome.unavailableAlert unavailableAlertText)) := by
  constructor
  · unfold handleSendMessage
    by_cases h : (jsTrim query == "") = true
    · simp [h]
    · simp [h]
  · intro h
    have h2 : (jsTrim query == "") = false := by simpa using h
    unfold handleSendMessage
    simp [h2]

/-- Each transcript mutation preserves the sources-only-when-final
invariant. -/
lemma applyOrchEv_preserves (hist : List ChatMessage) (e : OrchEv)
    (h : sourcesOnlyWhenFinal hist) : sourcesOnlyWhenFinal (applyOrchEv hist e) := by
  cases e with
  | submit q n1 n2 =>
    intro m hm
    rcases List.mem_append.mp hm with hm | hm
    · exact h m hm
    · simp only [List.mem_cons, List.not_mem_nil, or_false] at hm
      rcases hm with rfl | rfl
      · intro hs; exact absurd rfl hs
      · intro hs; exact absurd rfl hs
  | chunk lid acc =>
    intro m hm
    simp only [applyOrchEv, chunkUpdate] at hm
    rcases List.mem_map.mp hm with ⟨m0, hm0, hfm⟩
    by_cases hg : (m0.id == lid && m0.isLoading) = true
    · rw [← hfm, if_pos hg]
      intro hs
      have hs0 : m0.sources ≠ none := by simpa using hs
      have := h m0 hm0 hs0
      simpa using this
    · rw [← hfm, if_neg hg]
      exact h m0 hm0
  | errorFin lid fid =>
    intro m hm
    simp only [applyOrchEv, errorUpdate] at hm
    rcases List.mem_map.mp hm with ⟨m0, hm0, hfm⟩
    by_cases hg : (m0.id == lid && m0.isLoading) = true
    · rw [← hfm, if_pos hg]
      intro _
      rfl
    · rw [← hfm, if_neg hg]
      exact h m0 hm0
  | completeFin lid fid acc src =>
    intro m hm
    simp only [applyOrchEv, completeUpdate] at hm
    rcases List.mem_map.mp hm with ⟨m0, hm0, hfm⟩
    by_cases hg : (m0.id == lid && m0.isLoading) = true
    · rw [← hfm, if_pos hg]
      intro _
      rfl
    · rw [← hfm, if_neg hg]
      exact h m0 hm0

/-- C9: in every transcript reachable by the component's mutations from the
empty transcript, a message carrying a sources list has `isLoading = false`;
attribution never attaches sources to a loading message. -/
theorem sources_never_attached_while_loading (evs : List OrchEv) :
    sourcesOnlyWhenFinal (evs.foldl applyOrchEv []) := by
  have gen : ∀ (l : List OrchEv) (h0 : List ChatMessage),
      sourcesOnlyWhenFinal h0 → sourcesOnlyWhenFinal (l.foldl applyOrchEv h0) := by
    intro l
    induction l with
    | nil => intro h0 h; exact h
    | cons e l ih =>
      intro h0 h
      exact ih _ (applyOrchEv_preserves h0 e h)
  refine gen evs [] ?_
  intro m hm
  cases hm

lemma renderBlock_length_pos (d : Document) : 0 < (renderBlock d).length := by
  have h15 : (0 : Nat) < ("Document Name: " : String).length := by decide
  simp only [renderBlock, String.length_append]
  omega

lemma joinWith_length_pos (sep x : String) (xs : List String)
    (hx : 0 < x.length) : 0 < (joinWith sep (x :: xs)).length := by
  cases xs with
  | nil => simpa [joinWith] using hx
  | cons y ys =>
    simp only [joinWith, String.length_append]
    omega

/-- C4: the context build filters the repository to documents with a
non-empty snippet or full content and renders one block for each of the
first five qualifying documents in repository order, joined by the fixed
delimiter; when at most five documents qualify every qualifying document
gets a block; when none qualify the context is the fixed no-documents
marker. -/
theorem assembleContext_spec (docs : List Document) :
    (docs.filter qualifies = [] → assembleContext docs = noDocsMarker) ∧
    (docs.filter qualifies ≠ [] →
      assembleContext docs =
        joinWith contextDelimiter (((docs.filter qualifies).take 5).map renderBlock)) ∧
    ((docs.filter qualifies).length ≤ 5 →
      (docs.filter qualifies).take 5 = docs.filter qualifies) := by
  refine ⟨?_, ?_, fun h => List.take_of_length_le h⟩
  · intro h
    simp only [assembleContext, contextSnippets]
    rw [h]
    rfl
  · intro h
    simp only [assembleContext, contextSnippets]
    obtain ⟨d, rest, hd⟩ : ∃ d rest, docs.filter qualifies = d :: rest := by
      cases hf : docs.filter qualifies with
      | nil => exact absurd hf h
      | cons d rest => exact ⟨d, rest, rfl⟩
    rw [hd]
    have hpos : 0 <
        (joinWith contextDelimiter ((List.take 5 (d :: rest)).map renderBlock)).length := by
      rw [show List.take 5 (d :: rest) = d :: List.take 4 rest from rfl,
        List.map_cons]
      exact joinWith_length_pos contextDelimiter (renderBlock d) _
        (renderBlock_length_pos d)
    rw [if_pos hpos]

/-- C6: the structured completion trims the raw text, strips a single
well-formed whole-string code fence keeping only the inner payload, and
parses the remainder as JSON; the fenced array parses to its elements, a
bare array parses as-is, an empty payload is a failure, an unavailable
service returns null without throwing, and a transport error or malformed
JSON raises the structured error carrying the best-effort raw text and the
cause. -/
theorem generateJson_postprocessing :
    generateJson true (Except.ok "```json\n[\"a\",\"b\"]\n```") =
      JsonOutcome.ok (Json.arr [Json.str "a", Json.str "b"]) ∧
    generateJson true (Except.ok "[]") = JsonOutcome.ok (Json.arr []) ∧
    generateJson true (Except.ok "") =
      JsonOutcome.err none JsonFailCause.emptyPayload ∧
    (∀ t, generateJson false t = JsonOutcome.nullResult) ∧
    (∀ e, generateJson true (Except.error e) =
      JsonOutcome.err e.responseText (JsonFailCause.transport e.message)) ∧
    generateJson true (Except.ok "not json") =
      JsonOutcome.err none JsonFailCause.parseFailure := by
  exact ⟨rfl, rfl, rfl, fun t => rfl, fun e => rfl, rfl⟩

/-- C7: the attribution resolver returns no attribution without issuing a
service call when the service is unavailable or the answer trims to empty;
otherwise it issues exactly one structured-completion call, keeps only the
string entries of an array result (the malformed example filters to its two
document names), and degrades any transport or parse failure to no
attribution with no error surfaced. -/
theorem fetchSourceAttribution_spec :
    (∀ ans t, fetchSourceAttribution false ans t = (none, false)) ∧
    (∀ ans t, jsTrim ans = "" → fetchSourceAttribution true ans t = (none, false)) ∧
    fetchSourceAttribution true "answer"
        (Except.ok "[\"doc1.pdf\", 42, null, \"report.docx\"]") =
      (some ["doc1.pdf", "report.docx"], true) ∧
    (∀ ans e, ¬ jsTrim ans = "" →
      fetchSourceAttribution true ans (Except.error e) = (none, true)) ∧
    fetchSourceAttribution true "answer" (Except.ok "not json") = (none, true) := by
  refine ⟨?_, ?_, by decide, ?_, by decide⟩
  · intro ans t
    unfold fetchSourceAttribution attributionSkipped
    simp
  · intro ans t h
    unfold fetchSourceAttribution attributionSkipped
    simp [h]
  · intro ans e h
    have h2 : (jsTrim ans == "") = false := by simpa using h
    unfold fetchSourceAttribution attributionSkipped
    simp [h2, generateJson]

end KnowledgeHub
